import Mathlib

/-!
Verification development for the Word-Deck dictionary front-end.

The repository has two near-identical entry points: `src/index.tsx`
(structured-JSON mode, with a word-of-the-day section) and
`src/unnamed/part_000` (grounded-text mode, no word-of-the-day section).
Both consist of one `submit` event handler plus a small set of helpers
(`showError`, `clearResults`, `showLoading`, `renderHistory`,
`updateHistory`).  This file shallowly embeds those handlers as pure
functions over an explicit application state, and proves the
specification's claims about them.
-/

namespace WordDeck

/-- Embedding of JavaScript `String.prototype.toLowerCase()` as used by
`updateHistory` (`word.toLowerCase()`): ASCII case mapping, applied
character-wise. -/
def jsToLower (s : String) : String := ⟨s.data.map Char.toLower⟩

/-- Embedding of JavaScript `String.prototype.trim()` as used by the submit
handlers (`searchInput.value.trim()`): strip leading and trailing
whitespace characters. -/
def jsTrim (s : String) : String :=
  ⟨((s.data.dropWhile Char.isWhitespace).reverse.dropWhile Char.isWhitespace).reverse⟩

/-- JavaScript template-literal interpolation of a possibly-undefined value:
interpolating `undefined` produces the literal text "undefined". -/
def jsTemplate : Option String → String
  | some s => s
  | none => "undefined"

/-! ## Recency store (localStorage history)

Both entry points read the history with
`JSON.parse(localStorage.getItem(HISTORY_KEY) || '[]') as string[]`
(`renderHistory` and `updateHistory`), and write it with
`localStorage.setItem(HISTORY_KEY, JSON.stringify(history))`.

The stored values the code itself produces are JSON arrays of plain
strings, so the embedding models `JSON.parse` by an executable
recursive-descent reader for exactly that grammar (no escape sequences and
no surrounding whitespace, which `JSON.stringify` of plain words never
emits; words containing a quote or backslash character are outside the
modeled domain).  A `JSON.parse` input outside the grammar makes the
reader fail, which models the thrown `SyntaxError` (or the `TypeError`
thrown by the subsequent array operations when the parsed value is not an
array). -/

/-- Read the body of a JSON string literal (the opening quote already
consumed): succeeds at the closing quote, fails on a backslash (escape
sequences unmodeled) or on end of input. -/
def parseStrBody : List Char → Option (List Char × List Char)
  | [] => none
  | c :: cs =>
    if c = '"' then some ([], cs)
    else if c = '\\' then none
    else
      match parseStrBody cs with
      | some (w, rest) => some (c :: w, rest)
      | none => none

/-- Read a non-empty comma-separated run of JSON string literals terminated
by `]`.  `fuel` bounds the number of items. -/
def parseItems : Nat → List Char → Option (List String × List Char)
  | 0, _ => none
  | fuel + 1, cs =>
    match cs with
    | '"' :: cs1 =>
      match parseStrBody cs1 with
      | some (w, rest) =>
        match rest with
        | ',' :: rest1 =>
          match parseItems fuel rest1 with
          | some (ws, rest2) => some (⟨w⟩ :: ws, rest2)
          | none => none
        | ']' :: rest1 => some ([⟨w⟩], rest1)
        | _ => none
      | none => none
    | _ => none

/-- `JSON.parse` restricted to JSON arrays of plain strings; `none` models a
thrown exception. -/
def parseStringArray (cs : List Char) : Option (List String) :=
  match cs with
  | '[' :: rest =>
    if rest = [']'] then some []
    else
      match parseItems rest.length rest with
      | some (ws, remaining) => if remaining = [] then some ws else none
      | none => none
  | _ => none

/-- A plain word as serialized by `JSON.stringify`, quoted without escapes. -/
def quoteWord (w : String) : List Char := '"' :: w.data ++ ['"']

/-- The comma-separated items of `JSON.stringify` of a string array. -/
def stringifyItems : List String → List Char
  | [] => []
  | [w] => quoteWord w
  | w :: ws => quoteWord w ++ ',' :: stringifyItems ws

/-- Embedding of `JSON.stringify(history)` for a history of plain words. -/
def stringifyHistory (l : List String) : String := ⟨'[' :: (stringifyItems l ++ [']'])⟩

/-- Embedding of the load expression shared by `renderHistory` and
`updateHistory`:
`JSON.parse(localStorage.getItem(HISTORY_KEY) || '[]') as string[]`.
`storage` is the value stored under `HISTORY_KEY` (`none` when absent);
the `||` falls back to `'[]'` on `null` and on the empty string (both
falsy).  `Except.error` models an exception propagating to the caller. -/
def loadHistory (storage : Option String) : Except Unit (List String) :=
  let raw : String :=
    match storage with
    | none => "[]"
    | some s => if s = "" then "[]" else s
  match parseStringArray raw.data with
  | some history => .ok history
  | none => .error ()

/-- The list manipulation inside `updateHistory`: lowercase the word, drop
an existing occurrence, prepend, truncate to five entries. -/
def updateHistoryList (word : String) (history : List String) : List String :=
  let normalizedWord := jsToLower word
  let history1 := history.filter (fun item => item != normalizedWord)
  let history2 := normalizedWord :: history1
  if 5 < history2.length then history2.take 5 else history2

/-- Embedding of `updateHistory(word)` as a transformer of the stored value:
load (which can throw on a corrupted value — the thrown error propagates,
modeled by `Except.error`, and nothing is written), update the list, and
store the serialized result. -/
def updateHistory (word : String) (storage : Option String) :
    Except Unit (Option String) :=
  match loadHistory storage with
  | .error _ => .error ()
  | .ok history => .ok (some (stringifyHistory (updateHistoryList word history)))

/-- History states reachable by the code: the empty history (first load)
followed by any sequence of successful `updateHistory` list updates. -/
inductive ReachableHistory : List String → Prop where
  | empty : ReachableHistory []
  | record (w : String) {h : List String} :
      ReachableHistory h → ReachableHistory (updateHistoryList w h)

/-! ## Structured mode (`src/index.tsx`)

The handler sends a prompt with a response schema and then runs
`JSON.parse(response.text)` followed by direct template interpolation of
the parsed object's fields — there is no client-side field validation.  A
parsed reply is a JavaScript object whose fields may each be absent. -/

/-- The parsed JSON object interpolated by the structured handler; every
field may be absent (`undefined` in JavaScript). -/
structure GenData where
  compliment : Option String := none
  pronunciation : Option String := none
  partOfSpeech : Option String := none
  definition : Option String := none
  synonyms : Option (List String) := none
  antonyms : Option (List String) := none
  etymology : Option String := none
  exampleSentences : Option (List String) := none
deriving DecidableEq

/-- What `JSON.parse(response.text)` yields: `malformed` models a thrown
`SyntaxError` (including an absent `response.text`), `object` a parsed
reply. -/
inductive JsonText where
  | malformed
  | object (data : GenData)
deriving DecidableEq

/-- The observable content of the result markup built by the structured
handler (text slots of the template literal at `resultsContainer.innerHTML`). -/
structure RenderedEntry where
  heading : String
  compliment : String
  definition : String
  firstExample : Option String
  pronunciation : String
  partOfSpeech : String
  synonyms : List String
  antonyms : List String
  etymology : String
  moreExamples : List String
deriving DecidableEq

/-- The structured handler's result markup: `word` into the `h2` heading,
each data field interpolated (absent fields render as the literal
"undefined"), the first example and the synonym/antonym/extra-example
sections guarded by `field && field.length > 0` (or `> 1`). -/
def renderStructured (word : String) (data : GenData) : RenderedEntry where
  heading := word
  compliment := jsTemplate data.compliment
  definition := jsTemplate data.definition
  firstExample :=
    match data.exampleSentences with
    | some (s :: _) => some s
    | _ => none
  pronunciation := jsTemplate data.pronunciation
  partOfSpeech := jsTemplate data.partOfSpeech
  synonyms := data.synonyms.getD []
  antonyms := data.antonyms.getD []
  etymology := jsTemplate data.etymology
  moreExamples := (data.exampleSentences.getD []).drop 1

/-! ## Grounded-text mode (`src/unnamed/part_000`) -/

/-- A grounding chunk's `web` payload: `uri` plus optional `title`. -/
structure WebRef where
  uri : String
  title : Option String
deriving DecidableEq

/-- A grounding chunk; `web` may be absent. -/
structure Chunk where
  web : Option WebRef
deriving DecidableEq

/-- The source-building loop of the grounded handler: keep each chunk that
has a `web` payload whose `uri` is not yet in `seenUris`, in traversal
order, adding kept uris to `seenUris`. -/
def extractSources : List Chunk → List String → List WebRef
  | [], _ => []
  | chunk :: rest, seenUris =>
    match chunk.web with
    | some w =>
      if seenUris.contains w.uri then extractSources rest seenUris
      else w :: extractSources rest (w.uri :: seenUris)
    | none => extractSources rest seenUris

/-- The link text of a rendered source: `chunk.web.title || chunk.web.uri`
(an absent or empty title falls back to the uri). -/
def linkText (w : WebRef) : String :=
  match w.title with
  | some t => if t = "" then w.uri else t
  | none => w.uri

/-- Embedding of `response.text.replace(/\n/g, '<br>')`. -/
def newlineToBr (s : String) : String :=
  ⟨s.data.foldr (fun c acc => if c = '\n' then '<' :: 'b' :: 'r' :: '>' :: acc else c :: acc) []⟩

/-- The observable content of the grounded handler's result markup:
heading, definition block, and the sources block (`sourcesShown` is
whether the Sources header was emitted at all — the
`groundingChunks && groundingChunks.length > 0` guard). -/
structure GroundedRendered where
  heading : String
  definition : String
  sourcesShown : Bool
  sources : List (String × String)
deriving DecidableEq

/-- The grounded handler's result markup: `word` into the heading, the
reply text with newlines replaced by `<br>` as the definition, and the
deduplicated source links as (href, link text) pairs. -/
def renderGrounded (word : String) (text : String) (chunks : Option (List Chunk)) :
    GroundedRendered :=
  let definition := newlineToBr text
  let shown : Bool :=
    match chunks with
    | some cs => decide (0 < cs.length)
    | none => false
  let sources :=
    if shown then (extractSources (chunks.getD []) []).map (fun w => (w.uri, linkText w))
    else []
  ⟨word, definition, shown, sources⟩

/-! ## Application state and the submit handlers

The observable state written by the handlers: the stored history value,
the results container, the error container, the loader, and (index.tsx
only) the word-of-the-day section's `hidden` class.  Each submit handler
is split at its one suspension point (the `await` of the service call)
into a synchronous start and a continuation receiving the service
outcome, mirroring the browser event loop. -/

/-- Contents of the results container. -/
inductive Rendered where
  | structuredEntry (e : RenderedEntry)
  | groundedEntry (g : GroundedRendered)
deriving DecidableEq

/-- Observable page state: `storage` is the persisted value under
`HISTORY_KEY`, `rendered` the results container (`none` = empty),
`errorShown` the error container (`none` = hidden), `loading` the loader
visibility, `wotdHidden` whether the word-of-the-day section has the
`hidden` class. -/
structure AppState where
  storage : Option String
  rendered : Option Rendered
  errorShown : Option String
  loading : Bool
  wotdHidden : Bool
deriving DecidableEq

/-- `showLoading(isLoading)`: toggle the loader. -/
def showLoading (isLoading : Bool) (st : AppState) : AppState :=
  { st with loading := isLoading }

/-- `clearResults()`: empty the results container and hide the error
container. -/
def clearResults (st : AppState) : AppState :=
  { st with rendered := none, errorShown := none }

/-- `showError(message)` from `src/index.tsx`: empty the results, show the
message, and un-hide the word-of-the-day section. -/
def showError (message : String) (st : AppState) : AppState :=
  { st with rendered := none, errorShown := some message, wotdHidden := false }

/-- `showError(message)` from `src/unnamed/part_000`: same but that page
has no word-of-the-day section. -/
def showErrorG (message : String) (st : AppState) : AppState :=
  { st with rendered := none, errorShown := some message }

/-- The validation message for an empty query. -/
def emptyQueryMsg : String := "Please enter a word."

/-- The message shown when the client failed to initialize. -/
def notInitializedMsg : String := "Gemini API is not initialized."

/-- The fixed fetch-failure message of `src/index.tsx`. -/
def fetchErrorMsg : String :=
  "An error occurred while fetching the definition. The word might be too obscure or there was a network issue. Please try again."

/-- The fixed fetch-failure message of `src/unnamed/part_000`. -/
def fetchErrorMsgG : String :=
  "An error occurred while fetching the definition. Please try again."

/-- Outcome of the structured-mode service call: the `await` either throws
(network/service failure) or produces a response whose text `JSON.parse`
then reads. -/
inductive ServiceOutcome where
  | failure
  | reply (text : JsonText)
deriving DecidableEq

/-- Outcome of the grounded-mode service call: failure, or a response with
its text and its optional grounding chunks
(`response.candidates?.[0]?.groundingMetadata?.groundingChunks`). -/
inductive GroundedOutcome where
  | failure
  | reply (text : String) (groundingChunks : Option (List Chunk))
deriving DecidableEq

/-- Synchronous prefix of the `src/index.tsx` submit handler once both
guards pass: hide the word-of-the-day section, show the loader, clear
results; then the service call is issued. -/
def submitStart (st : AppState) : AppState :=
  clearResults (showLoading true { st with wotdHidden := true })

/-- Continuation of the `src/index.tsx` submit handler after the `await`:
on failure the `catch` shows the fixed message; on a reply,
`updateHistory(word)` runs first (its own exception lands in the same
`catch`), then `JSON.parse(response.text)` (a `SyntaxError` lands in the
`catch` — after the history was already updated), then the result markup
is assigned.  The `finally` clears the loader on every path. -/
def submitResume (word : String) (outcome : ServiceOutcome) (st : AppState) : AppState :=
  match outcome with
  | .failure => showLoading false (showError fetchErrorMsg st)
  | .reply text =>
    match updateHistory word st.storage with
    | .error _ => showLoading false (showError fetchErrorMsg st)
    | .ok storage1 =>
      let st1 := { st with storage := storage1 }
      match text with
      | .malformed => showLoading false (showError fetchErrorMsg st1)
      | .object data =>
        showLoading false
          { st1 with rendered := some (.structuredEntry (renderStructured word data)) }

/-- Result of one whole submit: the final state, and whether the service
call (`ai.models.generateContent`) was reached at all. -/
structure SubmitResult where
  state : AppState
  networkCalled : Bool
deriving DecidableEq

/-- The whole `src/index.tsx` submit handler for one uninterrupted lookup:
trim the input; empty → validation error and return; client uninitialized
→ error and return; otherwise start, call the service, and resume with
its outcome. -/
def submit (aiInitialized : Bool) (inputValue : String) (outcome : ServiceOutcome)
    (st : AppState) : SubmitResult :=
  let word := jsTrim inputValue
  if word = "" then ⟨showError emptyQueryMsg st, false⟩
  else if !aiInitialized then ⟨showError notInitializedMsg st, false⟩
  else ⟨submitResume word outcome (submitStart st), true⟩

/-- Continuation of the `src/unnamed/part_000` submit handler after the
`await`; same shape as the structured one, but the reply is rendered as
grounded text with sources. -/
def submitResumeG (word : String) (outcome : GroundedOutcome) (st : AppState) : AppState :=
  match outcome with
  | .failure => showLoading false (showErrorG fetchErrorMsgG st)
  | .reply text chunks =>
    match updateHistory word st.storage with
    | .error _ => showLoading false (showErrorG fetchErrorMsgG st)
    | .ok storage1 =>
      let st1 := { st with storage := storage1 }
      showLoading false
        { st1 with rendered := some (.groundedEntry (renderGrounded word text chunks)) }

/-- The whole `src/unnamed/part_000` submit handler for one uninterrupted
lookup (that page has no word-of-the-day section to hide). -/
def submitG (aiInitialized : Bool) (inputValue : String) (outcome : GroundedOutcome)
    (st : AppState) : SubmitResult :=
  let word := jsTrim inputValue
  if word = "" then ⟨showErrorG emptyQueryMsg st, false⟩
  else if !aiInitialized then ⟨showErrorG notInitializedMsg st, false⟩
  else ⟨submitResumeG word outcome (clearResults (showLoading true st)), true⟩

/-- Event-loop interleaving of two overlapping structured-mode lookups that
both pass the guards: A's synchronous prefix runs and its call is issued,
then B's synchronous prefix runs and its call is issued, and the two
continuations run in resolution order (the handler has no request token,
so both continuations commit their outcome unconditionally). -/
def runRace (wordA wordB : String) (outA outB : ServiceOutcome)
    (aResolvesLast : Bool) (st : AppState) : AppState :=
  let st2 := submitStart (submitStart st)
  if aResolvesLast then
    submitResume (jsTrim wordA) outA (submitResume (jsTrim wordB) outB st2)
  else
    submitResume (jsTrim wordB) outB (submitResume (jsTrim wordA) outA st2)

/-- Every entry of a history list produced by the code is fixed by
lowercasing. -/
def LowerFixed (h : List String) : Prop := ∀ x ∈ h, jsToLower x = x

/-- Words in the modeled serialization domain: no quote and no backslash
characters (`JSON.stringify` would escape those; escapes are unmodeled). -/
def GoodWords (l : List String) : Prop := ∀ u ∈ l, ∀ c ∈ u.data, c ≠ '"' ∧ c ≠ '\\'

instance (l : List String) : Decidable (GoodWords l) := by
  unfold GoodWords
  infer_instance

/-- A concrete page state used by the witnesses and counterexamples: no
stored history, empty page, nothing hidden. -/
def st0 : AppState := ⟨none, none, none, false, false⟩

/-- A concrete parsed service reply that is valid JSON but lacks the
required `definition` field. -/
def gdataNoDef : GenData := { compliment := some "A creative compliment" }

/-- A concrete fully-populated parsed service reply with the given
definition text. -/
def gdataFull (d : String) : GenData :=
  { compliment := some "c", pronunciation := some "p", partOfSpeech := some "n",
    definition := some d, synonyms := some ["s"], antonyms := some ["a"],
    etymology := some "e", exampleSentences := some ["e1", "e2"] }

/-! ## Helper lemmas -/

/-- ASCII lowercasing is idempotent on characters. -/
theorem char_toLower_toLower (c : Char) : c.toLower.toLower = c.toLower := by
  have key : ∀ n : Nat, 65 ≤ n → n ≤ 90 → (Char.ofNat (n + 32)).toNat = n + 32 := by
    intro n h1 h2
    have hv : Nat.isValidChar (n + 32) := by left; omega
    simp [Char.ofNat, hv, Char.ofNatAux]
    rfl
  unfold Char.toLower
  by_cases h : c.toNat ≥ 65 ∧ c.toNat ≤ 90
  · rw [if_pos h]
    have hm := key c.toNat h.1 h.2
    rw [if_neg (by rw [hm]; omega)]
  · rw [if_neg h, if_neg h]

/-- `jsToLower` is idempotent. -/
theorem jsToLower_idem (s : String) : jsToLower (jsToLower s) = jsToLower s := by
  show (⟨(s.data.map Char.toLower).map Char.toLower⟩ : String) = ⟨s.data.map Char.toLower⟩
  rw [List.map_map]
  congr 1
  exact List.map_congr_left fun c _ => char_toLower_toLower c

/-- The invariant maintained by `updateHistoryList` on reachable histories:
no duplicates, all entries lowercase-fixed, at most five entries. -/
theorem reachable_invariant {h : List String} (hr : ReachableHistory h) :
    h.Nodup ∧ LowerFixed h ∧ h.length ≤ 5 := by
  induction hr with
  | empty => refine ⟨List.nodup_nil, ?_, by simp⟩; intro x hx; cases hx
  | record w hprev ih =>
    obtain ⟨hnd, hlf, hlen⟩ := ih
    set n := jsToLower w with hn
    have hfilter_nd : (List.filter (fun item => item != n) _).Nodup := hnd.filter _
    have hnotmem : n ∉ List.filter (fun item => item != n) ‹List String› := by
      intro hmem
      have := List.of_mem_filter hmem
      simp at this
    have hnd2 : (n :: List.filter (fun item => item != n) ‹List String›).Nodup :=
      List.nodup_cons.mpr ⟨hnotmem, hfilter_nd⟩
    have hlf2 : LowerFixed (n :: List.filter (fun item => item != n) ‹List String›) := by
      intro x hx
      rcases List.mem_cons.mp hx with rfl | hx'
      · exact jsToLower_idem w
      · exact hlf x (List.mem_of_mem_filter hx')
    constructor
    · simp only [updateHistoryList]
      split
      · exact hnd2.sublist (List.take_sublist _ _)
      · exact hnd2
    constructor
    · simp only [updateHistoryList]
      intro x hx
      apply hlf2
      split at hx
      · exact List.mem_of_mem_take hx
      · exact hx
    · simp only [updateHistoryList]
      split
      · simp
      · omega

/-- A convenient packaging of `updateHistoryList`'s shape. -/
theorem updateHistoryList_eq (w : String) (h : List String) :
    ∃ t, updateHistoryList w h = jsToLower w :: t := by
  simp only [updateHistoryList]
  split
  · exact ⟨_, rfl⟩
  · exact ⟨_, rfl⟩

/-! ## Claim theorems -/

/-- Claim C5: for every word and every reachable history state,
`record(word)` leaves no two case-insensitively equal entries, at most
five entries, and `word.toLowerCase()` at index 0; and recording "Run"
then "run" then "RUN" from the empty history yields exactly ["run"]. -/
theorem claim_record_invariant (w : String) (h : List String) (hr : ReachableHistory h) :
    (updateHistoryList w h).Pairwise (fun a b => jsToLower a ≠ jsToLower b)
    ∧ (updateHistoryList w h).length ≤ 5
    ∧ (updateHistoryList w h).head? = some (jsToLower w)
    ∧ updateHistoryList "RUN" (updateHistoryList "run" (updateHistoryList "Run" [])) = ["run"] := by
  obtain ⟨hnd, hlf, hlen⟩ := reachable_invariant (ReachableHistory.record w hr)
  refine ⟨?_, hlen, ?_, by decide⟩
  · refine hnd.imp_of_mem ?_
    intro a b ha hb hne
    rw [hlf a ha, hlf b hb]
    exact hne
  · obtain ⟨t, ht⟩ := updateHistoryList_eq w h
    rw [ht]; rfl

/-- Witness for C5 at word "Run" and the empty (reachable) history. -/
theorem claim_record_invariant_wit :
    (updateHistoryList "Run" []).length ≤ 5
    ∧ (updateHistoryList "Run" []).head? = some (jsToLower "Run") :=
  ⟨(claim_record_invariant "Run" [] ReachableHistory.empty).2.1,
   (claim_record_invariant "Run" [] ReachableHistory.empty).2.2.1⟩

/-- Claim C6: a query that is empty after trimming never reaches the
service call and goes straight to the fixed validation error, in both
entry points, from every page state. -/
theorem claim_empty_query (aiInit : Bool) (input : String) (oS : ServiceOutcome)
    (oG : GroundedOutcome) (st : AppState) (hempty : jsTrim input = "") :
    (submit aiInit input oS st).networkCalled = false
    ∧ (submit aiInit input oS st).state.errorShown = some emptyQueryMsg
    ∧ (submitG aiInit input oG st).networkCalled = false
    ∧ (submitG aiInit input oG st).state.errorShown = some emptyQueryMsg := by
  simp [submit, submitG, hempty, showError, showErrorG]

/-- Witness for C6 at a whitespace-only input. -/
theorem claim_empty_query_wit :
    jsTrim "   " = ""
    ∧ ((submit true "   " ServiceOutcome.failure st0).networkCalled = false
    ∧ (submit true "   " ServiceOutcome.failure st0).state.errorShown = some emptyQueryMsg
    ∧ (submitG true "   " GroundedOutcome.failure st0).networkCalled = false
    ∧ (submitG true "   " GroundedOutcome.failure st0).state.errorShown = some emptyQueryMsg) :=
  ⟨rfl, claim_empty_query true "   " ServiceOutcome.failure GroundedOutcome.failure st0 rfl⟩

/-- Claim C10: when the client failed to initialize, a non-empty trimmed
query shows the fixed message, issues no service call, and leaves the
stored history unchanged (both entry points). -/
theorem claim_uninitialized (input : String) (oS : ServiceOutcome) (oG : GroundedOutcome)
    (st : AppState) (hne : jsTrim input ≠ "") :
    (submit false input oS st).state.errorShown = some notInitializedMsg
    ∧ (submit false input oS st).networkCalled = false
    ∧ (submit false input oS st).state.storage = st.storage
    ∧ (submitG false input oG st).state.errorShown = some notInitializedMsg
    ∧ (submitG false input oG st).networkCalled = false
    ∧ (submitG false input oG st).state.storage = st.storage := by
  simp [submit, submitG, hne, showError, showErrorG]

/-- Claim C8: on a successful lookup in either mode, the rendered heading
is the user's trimmed, original-case query text, whatever the service
replied. -/
theorem claim_heading_is_query (input : String) (st : AppState) (data : GenData)
    (text : String) (chunks : Option (List Chunk)) (s1 s2 : Option String)
    (hne : jsTrim input ≠ "")
    (h1 : updateHistory (jsTrim input) st.storage = .ok s1)
    (h2 : updateHistory (jsTrim input) st.storage = .ok s2) :
    (∃ e, (submit true input (.reply (.object data)) st).state.rendered
        = some (.structuredEntry e) ∧ e.heading = jsTrim input)
    ∧ (∃ g, (submitG true input (.reply text chunks) st).state.rendered
        = some (.groundedEntry g) ∧ g.heading = jsTrim input) := by
  constructor
  · refine ⟨renderStructured (jsTrim input) data, ?_, rfl⟩
    simp [submit, hne, submitResume, submitStart, clearResults, showLoading, h1]
  · refine ⟨renderGrounded (jsTrim input) text chunks, ?_, rfl⟩
    simp [submitG, hne, submitResumeG, clearResults, showLoading, h2]

/-- Witness for C8 at input " Cat " against an empty store. -/
theorem claim_heading_is_query_wit :
    jsTrim " Cat " ≠ ""
    ∧ updateHistory (jsTrim " Cat ") st0.storage = .ok (some (stringifyHistory ["cat"]))
    ∧ ((∃ e, (submit true " Cat " (.reply (.object {})) st0).state.rendered
        = some (.structuredEntry e) ∧ e.heading = jsTrim " Cat ")
    ∧ (∃ g, (submitG true " Cat " (.reply "t" none) st0).state.rendered
        = some (.groundedEntry g) ∧ g.heading = jsTrim " Cat ")) :=
  ⟨by decide, by rfl,
   claim_heading_is_query " Cat " st0 {} "t" none _ _ (by decide) rfl rfl⟩

/-- Claim C9: the word-of-the-day section is hidden when a lookup starts,
stays hidden on a successful lookup, and is un-hidden whenever the submit
ends in the error state — it is never removed, only given or stripped of
the `hidden` class. -/
theorem claim_wotd_visibility (aiInit : Bool) (input : String) (o : ServiceOutcome)
    (st : AppState) :
    (submitStart st).wotdHidden = true
    ∧ ((submit aiInit input o st).state.errorShown.isSome = true →
        (submit aiInit input o st).state.wotdHidden = false)
    ∧ ((submit aiInit input o st).state.errorShown = none →
        (submit aiInit input o st).state.wotdHidden = true) := by
  refine ⟨rfl, ?_, ?_⟩ <;>
  · intro hshown
    simp only [submit] at *
    split at hshown
    · simp_all [showError]
    · split at hshown
      · simp_all [showError]
      · simp only [submitResume] at *
        split at hshown
        · simp_all [showError, showLoading]
        · split at hshown
          · simp_all [showError, showLoading]
          · split at hshown
            · simp_all [showError, showLoading]
            · simp_all [showError, showLoading, submitStart, clearResults]

/-- Witness for C9: a failed lookup restores the section. -/
theorem claim_wotd_visibility_wit :
    (submit true "cat" ServiceOutcome.failure st0).state.errorShown.isSome = true
    ∧ (submit true "cat" ServiceOutcome.failure st0).state.wotdHidden = false :=
  ⟨by decide, (claim_wotd_visibility true "cat" ServiceOutcome.failure st0).2.1 (by decide)⟩

/-- Witness for C10 at input "cat". -/
theorem claim_uninitialized_wit :
    jsTrim "cat" ≠ ""
    ∧ ((submit false "cat" ServiceOutcome.failure st0).state.errorShown = some notInitializedMsg
    ∧ (submit false "cat" ServiceOutcome.failure st0).networkCalled = false
    ∧ (submit false "cat" ServiceOutcome.failure st0).state.storage = st0.storage
    ∧ (submitG false "cat" GroundedOutcome.failure st0).state.errorShown = some notInitializedMsg
    ∧ (submitG false "cat" GroundedOutcome.failure st0).networkCalled = false
    ∧ (submitG false "cat" GroundedOutcome.failure st0).state.storage = st0.storage) :=
  ⟨by decide, claim_uninitialized "cat" ServiceOutcome.failure GroundedOutcome.failure st0 (by decide)⟩

/-- Reading back an escape-free quoted word body consumes exactly the word. -/
theorem parseStrBody_append (w rest : List Char)
    (hw : ∀ c ∈ w, c ≠ '"' ∧ c ≠ '\\') :
    parseStrBody (w ++ '"' :: rest) = some (w, rest) := by
  induction w with
  | nil => simp [parseStrBody]
  | cons c cs ih =>
    have hc := hw c (List.mem_cons_self c cs)
    have hcs : ∀ x ∈ cs, x ≠ '"' ∧ x ≠ '\\' := fun x hx => hw x (List.mem_cons_of_mem c hx)
    simp [parseStrBody, hc.1, hc.2, ih hcs]

/-- Serialized items are at least as many characters as items. -/
theorem length_le_stringifyItems (l : List String) : l.length ≤ (stringifyItems l).length := by
  induction l with
  | nil => simp [stringifyItems]
  | cons w ws ih =>
    cases ws with
    | nil => simp [stringifyItems, quoteWord]
    | cons x xs =>
      show (w :: x :: xs).length ≤ (quoteWord w ++ ',' :: stringifyItems (x :: xs)).length
      simp only [List.length_cons, List.length_append, quoteWord]
      simp only [List.length_cons] at ih ⊢
      omega

/-- Reading back the serialized items of a non-empty history recovers it. -/
theorem parseItems_stringify (l : List String) :
    ∀ (w : String) (fuel : Nat),
      GoodWords (w :: l) →
      l.length < fuel →
      parseItems fuel (stringifyItems (w :: l) ++ [']']) = some (w :: l, []) := by
  induction l with
  | nil =>
    intro w fuel hgood hfuel
    match fuel, hfuel with
    | f + 1, _ =>
      have hw : ∀ c ∈ w.data, c ≠ '"' ∧ c ≠ '\\' := hgood w (List.mem_cons_self w [])
      show parseItems (f + 1) (quoteWord w ++ [']']) = some ([w], [])
      have heq : quoteWord w ++ [']'] = '"' :: (w.data ++ '"' :: [']']) := by
        simp [quoteWord]
      rw [heq]
      simp [parseItems, parseStrBody_append w.data [']'] hw]
  | cons x xs ih =>
    intro w fuel hgood hfuel
    match fuel, hfuel with
    | f + 1, hfuel =>
      have hw : ∀ c ∈ w.data, c ≠ '"' ∧ c ≠ '\\' := hgood w (List.mem_cons_self w _)
      have hgood' : GoodWords (x :: xs) := fun u hu => hgood u (List.mem_cons_of_mem w hu)
      have hlt : xs.length < f := by
        simp only [List.length_cons] at hfuel; omega
      show parseItems (f + 1)
        ((quoteWord w ++ ',' :: stringifyItems (x :: xs)) ++ [']']) = some (w :: x :: xs, [])
      have heq : (quoteWord w ++ ',' :: stringifyItems (x :: xs)) ++ [']']
          = '"' :: (w.data ++ '"' :: (',' :: (stringifyItems (x :: xs) ++ [']']))) := by
        simp [quoteWord]
      rw [heq]
      simp [parseItems, parseStrBody_append w.data _ hw, ih x f hgood' hlt]

/-- Round trip: `JSON.parse` of `JSON.stringify` of a history of plain
words returns that history. -/
theorem loadHistory_stringify (l : List String) (hgood : GoodWords l) :
    loadHistory (some (stringifyHistory l)) = .ok l := by
  cases l with
  | nil => rfl
  | cons w xs =>
    have hfuel : xs.length < (stringifyItems (w :: xs) ++ [']']).length := by
      have h1 := length_le_stringifyItems (w :: xs)
      simp only [List.length_cons] at h1
      simp only [List.length_append, List.length_cons]
      omega
    have hrest : stringifyItems (w :: xs) ++ [']'] ≠ [']'] := by
      cases xs with
      | nil => simp [stringifyItems, quoteWord]
      | cons y ys => simp [stringifyItems, quoteWord]
    have hnonempty : stringifyHistory (w :: xs) ≠ "" := by
      intro h
      have hd : ('[' :: (stringifyItems (w :: xs) ++ [']'])) = ([] : List Char) :=
        congrArg String.data h
      simp at hd
    have hparse : parseStringArray (stringifyHistory (w :: xs)).data = some (w :: xs) := by
      show (if stringifyItems (w :: xs) ++ [']'] = [']'] then some []
        else
          match parseItems (stringifyItems (w :: xs) ++ [']']).length
              (stringifyItems (w :: xs) ++ [']']) with
          | some (ws, remaining) => if remaining = [] then some ws else none
          | none => none) = some (w :: xs)
      rw [if_neg hrest, parseItems_stringify xs w _ hgood hfuel]
      rfl
    simp [loadHistory, hnonempty, hparse]

/-- Claim C3 counterexample: a corrupted (non-JSON) stored value makes the
load expression throw — `JSON.parse` raises and nothing catches it, so
the error propagates to the caller instead of an empty sequence. -/
theorem claim_load_failsoft_cex : loadHistory (some "notjson") = Except.error () := rfl

/-- Claim C3 as amended: the load expression returns the empty sequence
when the stored value is absent or the empty string (the `|| '[]'`
fallback), returns the stored history for a well-formed serialized
array, but propagates the parse error (throws) on a corrupted non-JSON
value such as "notjson". -/
theorem claim_load_failsoft (l : List String) (hgood : GoodWords l) :
    loadHistory none = .ok []
    ∧ loadHistory (some "") = .ok []
    ∧ loadHistory (some (stringifyHistory l)) = .ok l
    ∧ loadHistory (some "notjson") = .error () :=
  ⟨rfl, rfl, loadHistory_stringify l hgood, rfl⟩

/-- Witness for amended C3 at the one-word history ["run"]. -/
theorem claim_load_failsoft_wit :
    GoodWords ["run"]
    ∧ (loadHistory none = .ok []
    ∧ loadHistory (some "") = .ok []
    ∧ loadHistory (some (stringifyHistory ["run"])) = .ok ["run"]
    ∧ loadHistory (some "notjson") = .error ()) :=
  ⟨by decide, claim_load_failsoft ["run"] (by decide)⟩

/-- Claim C1 counterexample: a lookup whose reply fails `JSON.parse` ends
in the error state, yet the stored history has changed — `updateHistory`
runs before `JSON.parse(response.text)`. -/
theorem claim_history_only_on_success_cex :
    (submit true "cat" (.reply .malformed) st0).state.errorShown = some fetchErrorMsg
    ∧ (submit true "cat" (.reply .malformed) st0).state.storage ≠ st0.storage := by
  decide

/-- Claim C1 as amended: a lookup that fails before or at the service call
(network/service failure; also empty query or uninitialized client)
leaves the stored history unchanged, but once a reply is received the
history is updated before the reply is parsed — so a lookup that ends in
a parse error has still mutated the history.  Both entry points behave
alike. -/
theorem claim_history_mutation_boundary (aiInit : Bool) (input : String) (st : AppState)
    (t : JsonText) (textG : String) (chunks : Option (List Chunk)) (s1 : Option String)
    (hne : jsTrim input ≠ "")
    (hupd : updateHistory (jsTrim input) st.storage = .ok s1) :
    (submit aiInit input .failure st).state.storage = st.storage
    ∧ (submitG aiInit input .failure st).state.storage = st.storage
    ∧ (aiInit = true → (submit aiInit input (.reply t) st).state.storage = s1)
    ∧ (aiInit = true → (submitG aiInit input (.reply textG chunks) st).state.storage = s1) := by
  refine ⟨?_, ?_, ?_, ?_⟩
  · cases aiInit <;>
      simp [submit, hne, submitResume, submitStart, showError, showLoading, clearResults]
  · cases aiInit <;>
      simp [submitG, hne, submitResumeG, showErrorG, showLoading, clearResults]
  · rintro rfl
    cases t <;>
      simp [submit, hne, submitResume, submitStart, showError, showLoading, clearResults, hupd]
  · rintro rfl
    simp [submitG, hne, submitResumeG, showErrorG, showLoading, clearResults, hupd]

/-- Witness for amended C1 at input "cat" against an empty store. -/
theorem claim_history_mutation_boundary_wit :
    jsTrim "cat" ≠ ""
    ∧ updateHistory (jsTrim "cat") st0.storage = .ok (some (stringifyHistory ["cat"]))
    ∧ ((submit true "cat" .failure st0).state.storage = st0.storage
    ∧ (submitG true "cat" .failure st0).state.storage = st0.storage
    ∧ (true = true →
        (submit true "cat" (.reply .malformed) st0).state.storage
          = some (stringifyHistory ["cat"]))
    ∧ (true = true →
        (submitG true "cat" (.reply "t" none) st0).state.storage
          = some (stringifyHistory ["cat"]))) :=
  ⟨by decide, by rfl,
   claim_history_mutation_boundary true "cat" st0 .malformed "t" none _ (by decide) rfl⟩

/-- Claim C2 counterexample: a service reply that is valid JSON but lacks
the `definition` field is not rejected: no error state is entered, a
result is rendered, and its definition slot holds the literal interpolated
text "undefined". -/
theorem claim_missing_definition_cex :
    (submit true "cat" (.reply (.object gdataNoDef)) st0).state.errorShown = none
    ∧ (submit true "cat" (.reply (.object gdataNoDef)) st0).state.rendered
        = some (.structuredEntry (renderStructured "cat" gdataNoDef))
    ∧ (renderStructured "cat" gdataNoDef).definition = "undefined" := by decide

/-- Claim C2 as amended: in structured mode an unparseable reply does
yield the error state with the fixed message (no crash), but a parseable
reply missing `definition` is not rejected — the client never validates
required fields (the declared response schema is only sent to the
service) — and the rendered result carries the literal text "undefined"
in the definition slot. -/
theorem claim_structured_parse_handling (input : String) (st : AppState) (data : GenData)
    (s1 : Option String) (hne : jsTrim input ≠ "")
    (hupd : updateHistory (jsTrim input) st.storage = .ok s1) :
    ((submit true input (.reply .malformed) st).state.errorShown = some fetchErrorMsg
      ∧ (submit true input (.reply .malformed) st).state.rendered = none)
    ∧ (data.definition = none →
        (submit true input (.reply (.object data)) st).state.errorShown = none
        ∧ ∃ e, (submit true input (.reply (.object data)) st).state.rendered
            = some (.structuredEntry e) ∧ e.definition = "undefined") := by
  refine ⟨?_, fun hdef => ⟨?_, renderStructured (jsTrim input) data, ?_, ?_⟩⟩
  · simp [submit, hne, submitResume, submitStart, showError, showLoading, clearResults, hupd]
  · simp [submit, hne, submitResume, submitStart, showError, showLoading, clearResults, hupd]
  · simp [submit, hne, submitResume, submitStart, showError, showLoading, clearResults, hupd]
  · simp [renderStructured, hdef, jsTemplate]

/-- Witness for amended C2 at input "cat" and the concrete
definition-free reply. -/
theorem claim_structured_parse_handling_wit :
    jsTrim "cat" ≠ ""
    ∧ updateHistory (jsTrim "cat") st0.storage = .ok (some (stringifyHistory ["cat"]))
    ∧ gdataNoDef.definition = none
    ∧ (submit true "cat" (.reply (.object gdataNoDef)) st0).state.errorShown = none :=
  ⟨by decide, by rfl, rfl,
   ((claim_structured_parse_handling "cat" st0 gdataNoDef _ (by decide) rfl).2 rfl).1⟩

/-- The uris kept by the source-building loop are distinct and avoid the
already-seen set. -/
theorem extractSources_nodup (chunks : List Chunk) :
    ∀ seen : List String,
      ((extractSources chunks seen).map WebRef.uri).Nodup
      ∧ ∀ u ∈ (extractSources chunks seen).map WebRef.uri, u ∉ seen := by
  induction chunks with
  | nil => intro seen; simp [extractSources]
  | cons c rest ih =>
    intro seen
    cases hcw : c.web with
    | none => simpa [extractSources, hcw] using ih seen
    | some w =>
      by_cases hmem : w.uri ∈ seen
      · simpa [extractSources, hcw, hmem] using ih seen
      · obtain ⟨hnd, hnotin⟩ := ih (w.uri :: seen)
        have hshape : extractSources (c :: rest) seen
            = w :: extractSources rest (w.uri :: seen) := by
          simp [extractSources, hcw, hmem]
        rw [hshape]
        refine ⟨?_, ?_⟩
        · rw [List.map_cons, List.nodup_cons]
          refine ⟨fun hu => ?_, hnd⟩
          rcases List.mem_map.mp hu with ⟨v, hv, hvu⟩
          exact hnotin _ (List.mem_map_of_mem _ hv) (hvu ▸ List.mem_cons_self _ _)
        · intro u hu
          rw [List.map_cons, List.mem_cons] at hu
          rcases hu with rfl | hu'
          · exact hmem
          · exact fun huseen => hnotin u hu' (List.mem_cons_of_mem _ huseen)

/-- The kept sources are a subsequence of the web payloads of the chunks,
so first-seen order is preserved. -/
theorem extractSources_sublist (chunks : List Chunk) :
    ∀ seen : List String,
      List.Sublist (extractSources chunks seen) (chunks.filterMap Chunk.web) := by
  induction chunks with
  | nil => intro seen; simp [extractSources]
  | cons c rest ih =>
    intro seen
    cases hcw : c.web with
    | none => simpa [extractSources, hcw, List.filterMap_cons, hcw] using ih seen
    | some w =>
      simp only [extractSources, hcw, List.filterMap_cons]
      split
      · exact (ih seen).cons w
      · exact (ih (w.uri :: seen)).cons₂ w

/-- Every web payload's uri is represented among the kept sources (or was
already seen). -/
theorem extractSources_complete (chunks : List Chunk) :
    ∀ seen : List String, ∀ w ∈ chunks.filterMap Chunk.web,
      w.uri ∈ seen ∨ w.uri ∈ (extractSources chunks seen).map WebRef.uri := by
  induction chunks with
  | nil => intro seen w hw; simp [List.filterMap_nil] at hw
  | cons c rest ih =>
    intro seen w hw
    cases hcw : c.web with
    | none =>
      rw [List.filterMap_cons, hcw] at hw
      simpa [extractSources, hcw] using ih seen w hw
    | some v =>
      rw [List.filterMap_cons, hcw] at hw
      by_cases hmem : v.uri ∈ seen
      · rcases List.mem_cons.mp hw with rfl | hw'
        · left; exact hmem
        · simpa [extractSources, hcw, hmem] using ih seen w hw'
      · have hshape : extractSources (c :: rest) seen
            = v :: extractSources rest (v.uri :: seen) := by
          simp [extractSources, hcw, hmem]
        rw [hshape, List.map_cons, List.mem_cons]
        rcases List.mem_cons.mp hw with rfl | hw'
        · right; left; rfl
        · rcases ih (v.uri :: seen) w hw' with hseen | hkept
          · rcases List.mem_cons.mp hseen with heq | hseen'
            · right; left; exact heq
            · left; exact hseen'
          · right; right; exact hkept

/-- Replacing newlines is the identity on newline-free text. -/
theorem newlineToBr_no_newline (s : String) (h : ∀ c ∈ s.data, c ≠ '\n') :
    newlineToBr s = s := by
  have hfold : ∀ l : List Char, (∀ c ∈ l, c ≠ '\n') →
      l.foldr (fun c acc => if c = '\n' then '<' :: 'b' :: 'r' :: '>' :: acc else c :: acc) [] = l := by
    intro l hl
    induction l with
    | nil => rfl
    | cons c cs ih =>
      have hc : c ≠ '\n' := hl c (List.mem_cons_self c cs)
      have hcs : ∀ x ∈ cs, x ≠ '\n' := fun x hx => hl x (List.mem_cons_of_mem c hx)
      simp [hc, ih hcs]
  show (⟨_⟩ : String) = s
  rw [hfold s.data h]

/-- Claim C7: in grounded-text mode, a successful lookup renders the raw
reply text as the definition — newline characters mapped to `<br>` at
render time, and a newline-free reply rendered verbatim — and its sources
are the grounding citations with `web` payloads, deduplicated by uri,
their first-seen order preserved (a subsequence of the payloads), with
every cited uri represented; the grounded markup carries no other
structured fields. -/
theorem claim_grounded_normalization (input : String) (st : AppState) (text : String)
    (chunks : List Chunk) (s1 : Option String)
    (hne : jsTrim input ≠ "")
    (hupd : updateHistory (jsTrim input) st.storage = .ok s1) :
    ∃ g, (submitG true input (.reply text (some chunks)) st).state.rendered
        = some (.groundedEntry g)
    ∧ g.definition = newlineToBr text
    ∧ ((∀ c ∈ text.data, c ≠ '\n') → g.definition = text)
    ∧ (0 < chunks.length →
        g.sources = (extractSources chunks []).map (fun w => (w.uri, linkText w))
        ∧ ((extractSources chunks []).map WebRef.uri).Nodup
        ∧ List.Sublist (extractSources chunks []) (chunks.filterMap Chunk.web)
        ∧ ∀ w ∈ chunks.filterMap Chunk.web,
            w.uri ∈ (extractSources chunks []).map WebRef.uri) := by
  refine ⟨renderGrounded (jsTrim input) text (some chunks), ?_, rfl, ?_, ?_⟩
  · simp [submitG, hne, submitResumeG, clearResults, showLoading, hupd]
  · intro hnl
    exact newlineToBr_no_newline text hnl
  · intro hlen
    refine ⟨?_, (extractSources_nodup chunks []).1, extractSources_sublist chunks [],
      fun w hw => ?_⟩
    · simp [renderGrounded, hlen]
    · rcases extractSources_complete chunks [] w hw with hseen | hkept
      · simp at hseen
      · exact hkept

/-- Witness for C7 at a concrete reply with one duplicated citation. -/
theorem claim_grounded_normalization_wit :
    jsTrim "cat" ≠ ""
    ∧ updateHistory (jsTrim "cat") st0.storage = .ok (some (stringifyHistory ["cat"]))
    ∧ ∃ g, (submitG true "cat"
          (.reply "line1\nline2"
            (some [⟨some ⟨"u1", some "t1"⟩⟩, ⟨none⟩, ⟨some ⟨"u1", some "other"⟩⟩,
              ⟨some ⟨"u2", none⟩⟩])) st0).state.rendered
        = some (.groundedEntry g)
      ∧ g.definition = newlineToBr "line1\nline2" :=
  ⟨by decide, by rfl,
   match claim_grounded_normalization "cat" st0 "line1\nline2"
      [⟨some ⟨"u1", some "t1"⟩⟩, ⟨none⟩, ⟨some ⟨"u1", some "other"⟩⟩, ⟨some ⟨"u2", none⟩⟩]
      _ (by decide) rfl with
   | ⟨g, h1, h2, _, _⟩ => ⟨g, h1, h2⟩⟩

/-- Claim C4 at the failing input: lookup A ("alpha") starts, lookup B
("beta") starts before A resolves, both replies are well-formed, and A's
reply arrives last; the handler has no request token, so A's late
response is rendered and the final state reflects A, not B. -/
theorem claim_race_stale_overwrites :
    (runRace "alpha" "beta" (.reply (.object (gdataFull "defA")))
        (.reply (.object (gdataFull "defB"))) true st0).rendered
      = some (.structuredEntry (renderStructured "alpha" (gdataFull "defA")))
    ∧ (renderStructured "alpha" (gdataFull "defA")).heading = "alpha"
    ∧ (renderStructured "alpha" (gdataFull "defA")).heading ≠ "beta" := by
  decide

end WordDeck
